import Mathlib

/-!
# Verification of the share-tracker backend against its specification

Shallow embedding of the Python backend (`src/backend/…`) of the
share-tracker repository, together with theorems settling the frozen
claims C1..C10.

Modelling conventions:
* Python `float` arithmetic is modelled exactly over `ℚ` (the code only
  uses `+ - * /` on values produced from its inputs); floating-point
  rounding is outside the scope of the claims.
* `np.sqrt` / `np.std` produce irrational values, so quantities of the
  shape `q·√r` (confidence-interval margins and bounds) are represented
  by pairs of rationals `(q, r)` meaning `q·√r`; theorem statements use
  `Real.sqrt` on those fields to speak about the real value.
* Python dictionaries with possibly-missing keys become structures with
  `Option` fields; `dict.get(k, d)` becomes `Option.getD`.
* A Python expression that can raise (`ZeroDivisionError` in the
  day-over-day return computations) is embedded in `Except Unit`.
* SQLite tables become lists of row structures; `INSERT` appends,
  `CURRENT_TIMESTAMP` becomes an explicit integer `now` parameter.
-/

namespace ShareTracker

/-! ## Configuration (`src/backend/config.py`)

Only the constants the claims depend on. `1.96`, `0.3`, `0.8`, `0.1`
appear in the prediction code as float literals and are written as the
corresponding rationals. -/

/-- `Config.FORECAST_DAYS = 10`. -/
def FORECAST_DAYS : ℕ := 10

/-- `Config.ARIMA_ORDER = {'p': 5, 'd': 1, 'q': 0}`: the AR order. -/
def ARIMA_P : ℕ := 5

/-- `Config.ARIMA_ORDER['d'] = 1`: the differencing order. -/
def ARIMA_D : ℕ := 1

/-- `Config.SENTIMENT_WEIGHT = 0.3`. -/
def SENTIMENT_WEIGHT : ℚ := 3 / 10

/-! ## News service (`src/backend/news_service.py`) -/

/-- A news article dictionary as it circulates in `news_service.py`.
Keys that may be absent from the dict are `Option`-valued; in
particular `sentiment_score` is absent on articles freshly returned by
`_fetch_news_from_api` and present after scoring. -/
structure Article where
  title : Option String
  description : Option String
  url : Option String
  source : Option String
  publishedAt : Option String
  urlToImage : Option String
  sentiment_score : Option ℚ
deriving DecidableEq, Repr

/-- The dictionary returned by `get_overall_sentiment`.  The code's
empty-input branch returns a dict *without* the `article_count` key, so
that field is `Option`-valued (`none` = key absent). -/
structure SentimentSummary where
  score : ℚ
  label : String
  confidence : ℚ
  article_count : Option ℕ
deriving DecidableEq, Repr

/-- `NewsService.get_overall_sentiment` (news_service.py lines 175-206).
`scores = [item.get('sentiment_score', 0.0) for item in news_items]`,
`avg_score = sum(scores)/len(scores)`, label thresholds `±0.2`,
`variance = sum((s-avg)**2 for s in scores)/len(scores)`,
`confidence = max(0, 1 - variance)`. -/
def get_overall_sentiment (news_items : List Article) : SentimentSummary :=
  if news_items = [] then
    { score := 0, label := "Neutral", confidence := 0, article_count := none }
  else
    let scores := news_items.map (fun item => item.sentiment_score.getD 0)
    let avg_score := scores.sum / (scores.length : ℚ)
    let label :=
      if 1/5 < avg_score then "Positive"
      else if avg_score < -(1/5) then "Negative"
      else "Neutral"
    let variance := (scores.map (fun s => (s - avg_score) ^ 2)).sum / (scores.length : ℚ)
    { score := avg_score, label := label,
      confidence := max 0 (1 - variance),
      article_count := some news_items.length }

/-- `NewsService._get_mock_news(query)` (news_service.py lines 150-173):
two fixed articles with preset `sentiment_score` values `0.5` and
`-0.2`.  The `publishedAt` values come from `datetime.now()` and are
passed in as the opaque strings `nowIso` / `sixHoursAgoIso`. -/
def get_mock_news (query nowIso sixHoursAgoIso : String) : List Article :=
  [ { title := some (query ++ " shows strong market performance"),
      description := some "Market analysts predict positive trends based on recent economic indicators.",
      url := some "#", source := some "Mock News",
      publishedAt := some nowIso, urlToImage := none,
      sentiment_score := some (1/2) },
    { title := some ("Investors cautious about " ++ query ++ " amid global uncertainty"),
      description := some "Global economic conditions continue to impact investor sentiment.",
      url := some "#", source := some "Mock News",
      publishedAt := some sixHoursAgoIso, urlToImage := none,
      sentiment_score := some (-(1/5)) } ]

/-- A raw article from a successful NewsAPI response, before the
projection in `_fetch_news_from_api` lines 134-144. -/
structure RawArticle where
  title : Option String
  description : Option String
  url : Option String
  sourceName : Option String
  publishedAt : Option String
  urlToImage : Option String
deriving DecidableEq, Repr

/-- `NewsService._fetch_news_from_api` (news_service.py lines 105-148).
The external call is abstracted as `apiResult`: `Except.error ()` is a
`requests.exceptions.RequestException` (handled at line 146 by falling
back to the mock batch), `Except.ok arts` a parsed `status == 'ok'`
response.  With no API key (line 109) the mock batch is returned
without calling the provider.  Raw articles are projected to the
article dict shape; note no `sentiment_score` key is set here. -/
def fetch_news_from_api (hasApiKey : Bool) (apiResult : Except Unit (List RawArticle))
    (query nowIso sixHoursAgoIso : String) : List Article :=
  if !hasApiKey then get_mock_news query nowIso sixHoursAgoIso
  else
    match apiResult with
    | .error _ => get_mock_news query nowIso sixHoursAgoIso
    | .ok arts =>
        arts.map (fun a =>
          { title := a.title, description := a.description, url := a.url,
            source := a.sourceName, publishedAt := a.publishedAt,
            urlToImage := a.urlToImage, sentiment_score := none })

/-- The symbol → company-name map of `fetch_stock_news`
(news_service.py lines 46-57). -/
def company_map : List (String × String) :=
  [ ("TATASTEEL", "Tata Steel"), ("RELIANCE", "Reliance Industries"),
    ("TCS", "Tata Consultancy Services"), ("INFY", "Infosys"),
    ("HDFCBANK", "HDFC Bank"), ("ICICIBANK", "ICICI Bank"),
    ("SBIN", "State Bank of India"), ("WIPRO", "Wipro"),
    ("MARUTI", "Maruti Suzuki"), ("ITC", "ITC Limited") ]

/-- The query string `fetch_stock_news` derives from a symbol
(news_service.py lines 43-59): strip `.NS` / `.BO`, then map through
`company_map` with the stripped name itself as fallback. -/
def search_query (symbol : String) : String :=
  let company_name := (symbol.replace ".NS" "").replace ".BO" ""
  ((company_map.lookup company_name).getD company_name)

/-- The scoring text of `fetch_stock_news` line 66:
`f"{article.get('title', '')} {article.get('description', '')}"`. -/
def article_text (a : Article) : String :=
  a.title.getD "" ++ " " ++ a.description.getD ""

/-- `NewsService.fetch_stock_news` on a cache miss (news_service.py
lines 32-76, with `use_cache=False` or an empty cache, so lines 37-40
do not return).  `analyze` abstracts `TextBlob`-based
`analyze_sentiment` (a fixed pure function of the text).  Every article
coming back from `_fetch_news_from_api` — the mock batch included — has
its `sentiment_score` overwritten at line 67 with the analyzer's output
on its title+description.  The `db.cache_news` side effect (line 71)
does not affect the returned value and is modelled in the database
section. -/
def fetch_stock_news (analyze : String → ℚ) (hasApiKey : Bool)
    (apiResult : Except Unit (List RawArticle))
    (symbol nowIso sixHoursAgoIso : String) : List Article :=
  let news := fetch_news_from_api hasApiKey apiResult (search_query symbol)
      nowIso sixHoursAgoIso
  news.map (fun a => { a with sentiment_score := some (analyze (article_text a)) })

/-! ## Database layer (`src/backend/database.py`)

Each SQLite table is a list of rows in insertion order (`INSERT`
appends; rows are never updated in place).  `DATETIME` values are
integers; each write takes the current time `now` explicitly in place
of `CURRENT_TIMESTAMP`.  JSON payloads (`data`, `forecast_data`) are
kept as opaque strings (`json.dumps`/`json.loads` round-trip is the
identity on them). -/

/-- A row of the `stock_prices` table. -/
structure StockPriceRow where
  symbol : String
  price : ℚ
  change_percent : ℚ
  volume : ℤ
  timestamp : ℤ
  data : String
deriving DecidableEq, Repr

/-- A row of the `news_cache` table (the `symbol` column is nullable:
`NULL` marks market-wide news). -/
structure NewsRow where
  symbol : Option String
  title : Option String
  description : Option String
  url : Option String
  source : Option String
  published_at : Option String
  sentiment_score : ℚ
  cached_at : ℤ
deriving DecidableEq, Repr

/-- A row of the `predictions` table. -/
structure PredictionRow where
  symbol : String
  forecast_data : String
  sentiment_score : ℚ
  created_at : ℤ
deriving DecidableEq, Repr

/-- The three tables created by `Database.init_db`. -/
structure DB where
  stock_prices : List StockPriceRow
  news_cache : List NewsRow
  predictions : List PredictionRow
deriving DecidableEq, Repr

/-- The freshly initialized database. -/
def DB.empty : DB := ⟨[], [], []⟩

/-- Python truthiness of the optional `symbol` argument: `None` and the
empty string are falsy (`if symbol:` in `get_cached_news`). -/
def truthySymbol : Option String → Bool
  | none => false
  | some s => !(s == "")

/-- `Database.cache_stock_price` (database.py lines 73-85). -/
def cache_stock_price (st : DB) (symbol : String) (price change_percent : ℚ)
    (volume : ℤ) (data : String) (now : ℤ) : DB :=
  { st with stock_prices :=
      st.stock_prices ++ [⟨symbol, price, change_percent, volume, now, data⟩] }

/-- `Database.cache_news` (database.py lines 114-135): one insert per
article, `sentiment_score` defaulting to `0.0` when absent, all rows of
the batch stamped with the same `CURRENT_TIMESTAMP`. -/
def cache_news (st : DB) (symbol : Option String) (articles : List Article)
    (now : ℤ) : DB :=
  { st with news_cache :=
      st.news_cache ++ articles.map (fun a =>
        ⟨symbol, a.title, a.description, a.url, a.source, a.publishedAt,
         a.sentiment_score.getD 0, now⟩) }

/-- `Database.cache_prediction` (database.py lines 163-174). -/
def cache_prediction (st : DB) (symbol : String) (forecast_data : String)
    (sentiment_score : ℚ) (now : ℤ) : DB :=
  { st with predictions :=
      st.predictions ++ [⟨symbol, forecast_data, sentiment_score, now⟩] }

/-- `Database.get_cached_news` (database.py lines 137-161):
`cutoff = now - max_age`; with a truthy symbol the query filters
`symbol = ? AND cached_at > ?`, otherwise — the "global" read — it
filters on `cached_at > ?` **only** (no symbol restriction).  The
`ORDER BY published_at DESC` presentation order is not modelled; the
claims about this function concern which rows are returned. -/
def get_cached_news (st : DB) (symbol : Option String) (max_age_seconds : ℤ)
    (now : ℤ) : List NewsRow :=
  let cutoff := now - max_age_seconds
  if truthySymbol symbol then
    st.news_cache.filter (fun r => r.symbol == symbol && cutoff < r.cached_at)
  else
    st.news_cache.filter (fun r => cutoff < r.cached_at)

/-- `ORDER BY t DESC LIMIT 1` over rows in insertion order: the row
with the greatest timestamp, the later-inserted row winning ties. -/
def pickLatest {α : Type} (time : α → ℤ) : List α → Option α
  | [] => none
  | r :: rest =>
      match pickLatest time rest with
      | none => some r
      | some b => some (if time r ≤ time b then b else r)

/-- `Database.get_cached_stock_price` (database.py lines 87-112):
most recent row for the symbol with `timestamp > now - max_age`.
The code re-packages the row into a dict; the row itself is returned
here (the dict is a field-for-field copy). -/
def get_cached_stock_price (st : DB) (symbol : String) (max_age_seconds : ℤ)
    (now : ℤ) : Option StockPriceRow :=
  let cutoff := now - max_age_seconds
  pickLatest (·.timestamp)
    (st.stock_prices.filter (fun r => r.symbol == symbol && cutoff < r.timestamp))

/-- `Database.get_cached_prediction` (database.py lines 176-199):
most recent `predictions` row for the symbol with
`created_at > now - max_age`. -/
def get_cached_prediction (st : DB) (symbol : String) (max_age_seconds : ℤ)
    (now : ℤ) : Option PredictionRow :=
  let cutoff := now - max_age_seconds
  pickLatest (·.created_at)
    (st.predictions.filter (fun r => r.symbol == symbol && cutoff < r.created_at))

/-- One cache write, for quantifying over arbitrary write sequences. -/
inductive WriteOp
  | price (symbol : String) (price change_percent : ℚ) (volume : ℤ)
      (data : String) (now : ℤ)
  | news (symbol : Option String) (articles : List Article) (now : ℤ)
  | pred (symbol : String) (forecast_data : String) (sentiment_score : ℚ)
      (now : ℤ)

/-- Apply one cache write to the database state. -/
def applyOp (st : DB) : WriteOp → DB
  | .price s p cp v d t => cache_stock_price st s p cp v d t
  | .news s arts t => cache_news st s arts t
  | .pred s f sc t => cache_prediction st s f sc t

/-- Apply a sequence of cache writes, oldest first. -/
def applyOps (st : DB) (ops : List WriteOp) : DB := ops.foldl applyOp st

/-! ## Market service (`src/backend/market_service.py`) -/

/-- Python's `round(x, 2)`.  (`round` on floats rounds half to even;
the claims never evaluate it on a half-cent boundary, so ordinary
rounding of the exact rational is used.) -/
def round2 (q : ℚ) : ℚ := (round (q * 100) : ℤ) / 100

/-- The `ticker.info` dict fields `fetch_stock_quick` reads; every
lookup in the code uses `.get`, so all fields are optional. -/
structure YInfo where
  currentPrice : Option ℚ
  regularMarketPrice : Option ℚ
  previousClose : Option ℚ
  longName : Option String
  volume : Option ℤ
  marketCap : Option ℚ
deriving DecidableEq, Repr

/-- Python `a or b` on an optional number: `None` and `0.0` are falsy
(`info.get('currentPrice') or info.get('regularMarketPrice', 0)`). -/
def pyOrQ (a : Option ℚ) (b : ℚ) : ℚ :=
  match a with
  | none => b
  | some v => if v = 0 then b else v

/-- The dict built by `fetch_stock_quick`.  On the success path the
code also emits `high`/`low`/`open`/`previousClose`/`currency`/
`lastUpdate`; the error dict omits `volume` and `marketCap` entirely,
and every later read of them uses `.get(…, 0)`, so those two are
plain fields defaulting to `0` on the error path.  `error` is the
`str(e)` of the caught exception (key absent = `none`). -/
structure Snapshot where
  symbol : String
  name : String
  price : ℚ
  change : ℚ
  changePercent : ℚ
  volume : ℤ
  marketCap : ℚ
  error : Option String
deriving DecidableEq, Repr

/-- `MarketService.fetch_stock_quick` (market_service.py lines 15-55).
The `yf.Ticker(symbol).info` call is abstracted as `outcome`:
`Except.ok info` a successful lookup, `Except.error msg` an exception
with `str(e) = msg`, which the code converts into the zero-filled
error dict of lines 48-55.  `change_percent` is guarded by Python
truthiness of `previous_close` (line 29): a zero previous close gives
`0` instead of dividing. -/
def fetch_stock_quick (symbol : String) (outcome : Except String YInfo) : Snapshot :=
  match outcome with
  | .error e =>
      { symbol := symbol, name := symbol.replace ".NS" "",
        price := 0, change := 0, changePercent := 0,
        volume := 0, marketCap := 0, error := some e }
  | .ok info =>
      let current_price := pyOrQ info.currentPrice (info.regularMarketPrice.getD 0)
      let previous_close := info.previousClose.getD current_price
      let change := current_price - previous_close
      let change_percent := if previous_close ≠ 0 then change / previous_close * 100 else 0
      { symbol := symbol,
        name := info.longName.getD (symbol.replace ".NS" ""),
        price := round2 current_price,
        change := round2 change,
        changePercent := round2 change_percent,
        volume := info.volume.getD 0,
        marketCap := info.marketCap.getD 0,
        error := none }

/-- The parts of the `fetch_market_overview` result dict the claims
refer to: the merged record list and the `statistics` sub-dict.
(`topGainers`/`topLosers`/`categories`/`lastUpdate` are derived views
not referenced by any claim.) -/
structure Overview where
  stocks : List Snapshot
  total : ℕ
  gainers : ℕ
  losers : ℕ
  unchanged : ℤ
  avgChange : ℚ
deriving Repr

/-- Exclusion test of line 73, `if not stock_data.get('error')`:
a record is kept when the `error` key is absent *or* its value is
falsy (the empty string). -/
def errorTruthy : Option String → Bool
  | none => false
  | some m => !(m == "")

/-- `MarketService.fetch_market_overview` (market_service.py lines
57-107) with the per-symbol provider outcomes supplied as a function.
The thread pool (`as_completed` completion order) only permutes
`stocks` before the line-79 sort; neither membership nor any statistic
depends on it, so the fan-out/fan-in is modelled by mapping over the
universe in order.  The in-place `marketCap` sort is omitted (it is a
permutation; `total`, counts and averages are computed from the same
list). -/
def fetch_market_overview (tracked_stocks : List String)
    (outcomes : String → Except String YInfo) : Overview :=
  let fetched := tracked_stocks.map (fun s => fetch_stock_quick s (outcomes s))
  let stocks := fetched.filter (fun r => !errorTruthy r.error)
  let total_stocks := stocks.length
  let gainers := stocks.countP (fun s => 0 < s.changePercent)
  let losers := stocks.countP (fun s => s.changePercent < 0)
  let unchanged : ℤ := (total_stocks : ℤ) - gainers - losers
  let avg_change : ℚ :=
    if total_stocks ≠ 0 then
      (stocks.map (·.changePercent)).sum / (total_stocks : ℚ)
    else 0
  { stocks := stocks, total := total_stocks, gainers := gainers,
    losers := losers, unchanged := unchanged, avgChange := round2 avg_change }

/-! ## Prediction service (`src/backend/prediction_service.py`) -/

/-- `Python enumerate`: map with the running index, starting at `k`. -/
def idxMap {α β : Type} (f : ℕ → α → β) : ℕ → List α → List β
  | _, [] => []
  | i, a :: rest => f i a :: idxMap f (i + 1) rest

/-- `PredictionService._difference` (prediction_service.py lines
158-160): `[data[i] - data[i-1] for i in range(1, len(data))]`. -/
def difference : List ℚ → List ℚ
  | a :: b :: rest => (b - a) :: difference (b :: rest)
  | _ => []

/-- `PredictionService._integrate` (lines 162-171): running cumulative
sum seeded with `last_value`.  (The code's `order` parameter is unused
in its body and dropped here.) -/
def integrate : List ℚ → ℚ → List ℚ
  | [], _ => []
  | v :: rest, cumsum => (cumsum + v) :: integrate rest (cumsum + v)

/-- `PredictionService._calculate_ar_coefficients` (lines 173-199).
For `lag` in `1..p`: `0` when `lag ≥ n`; otherwise
`Σ data[i]·data[i-lag] / Σ data[i]²` with the division guarded by
`denominator > 0` (else `0`).  Then, when the sum of absolute raw
coefficients is positive, all are rescaled by `0.8 / total`. -/
def calculate_ar_coefficients (data : List ℚ) (p : ℕ) : List ℚ :=
  let n := data.length
  let raw := (List.range p).map (fun k =>
    let lag := k + 1
    if n ≤ lag then 0
    else
      -- i ranges over lag..n-1 in the source; substitute i = i' + lag
      let numerator :=
        ((List.range (n - lag)).map (fun i => data.getD (i + lag) 0 * data.getD i 0)).sum
      let denominator := (data.map (fun x => x ^ 2)).sum
      if 0 < denominator then numerator / denominator else 0)
  let total := (raw.map (fun c => |c|)).sum
  if 0 < total then raw.map (fun c => c / total * (4/5)) else raw

/-- The forecast loop of `_arima_forecast` (lines 83-92):
`steps` iterations, each summing `coefficients[j] · working_data[-(j+1)]`
over `j < min(p, len(working_data))` and appending the result to the
working data.  The working data is carried most-recent-first, so the
negative index `-(j+1)` becomes position `j`. -/
def forecast_steps (coefficients : List ℚ) (p : ℕ) :
    ℕ → List ℚ → List ℚ
  | 0, _ => []
  | Nat.succ k, recentFirst =>
      let next :=
        ((List.range (min p recentFirst.length)).map
          (fun j => coefficients.getD j 0 * recentFirst.getD j 0)).sum
      next :: forecast_steps coefficients p k (next :: recentFirst)

/-- The day-over-day simple returns
`[(prices[i] - prices[i-1]) / prices[i-1] for i in range(1, len(prices))]`
computed (unguarded) at prediction_service.py lines 98 and 140-141:
a zero at any non-final position raises `ZeroDivisionError`, embedded
as `Except.error ()`. -/
def pyReturns : List ℚ → Except Unit (List ℚ)
  | a :: b :: rest =>
      if a = 0 then .error ()
      else do
        let rs ← pyReturns (b :: rest)
        pure (((b - a) / a) :: rs)
  | _ => .ok []

/-- `np.mean` of a rational list (empty input unreached by the claims). -/
def listMean (l : List ℚ) : ℚ := l.sum / (l.length : ℚ)

/-- The square of `np.std`: population variance.  Everywhere the code
uses `np.std(returns)` the embedding carries this rational variance,
the standard deviation itself being its (irrational) square root. -/
def listVariance (l : List ℚ) : ℚ :=
  ((l.map (fun x => (x - listMean l) ^ 2)).sum) / (l.length : ℚ)

/-- Result of `_arima_forecast`: the integrated forecast values and the
variance of the historical returns (the code's `'volatility'` entry is
`√(returns_variance) · √252`, kept in squared form). -/
structure ArimaOut where
  values : List ℚ
  returns_variance : ℚ
deriving DecidableEq, Repr

/-- `PredictionService._arima_forecast` (lines 67-104): difference `d`
times, fit AR coefficients, run the forecast recursion, integrate back
onto `prices[-1]`, and compute the historical-return volatility — whose
return computation divides by each previous price unguarded, making the
whole call raise on a series with a zero at a non-final position. -/
def arima_forecast (prices : List ℚ) : Except Unit ArimaOut := do
  let diff_data := difference^[ARIMA_D] prices
  let coefficients := calculate_ar_coefficients diff_data ARIMA_P
  let forecast_diff := forecast_steps coefficients ARIMA_P FORECAST_DAYS diff_data.reverse
  let forecast := integrate forecast_diff (prices.getLastD 0)
  let returns ← pyReturns prices
  pure ⟨forecast, listVariance returns⟩

/-- Result of `_adjust_forecast_with_sentiment` (the `volatility`
pass-through field carries no information and is dropped). -/
structure AdjustOut where
  values : List ℚ
  sentiment_adjustment : ℚ
deriving DecidableEq, Repr

/-- `PredictionService._adjust_forecast_with_sentiment` (lines
106-131): `sentiment_adjustment = score · sentiment_weight`; for index
`i` of `n`, `day_weight = (i+1)/n` and the value is scaled by
`1 + sentiment_adjustment · day_weight · 0.1`. -/
def adjust_forecast_with_sentiment (forecast_values : List ℚ)
    (sentiment_score : ℚ) : AdjustOut :=
  let sentiment_adjustment := sentiment_score * SENTIMENT_WEIGHT
  let n : ℚ := forecast_values.length
  ⟨idxMap (fun i value =>
      let day_weight := ((i : ℚ) + 1) / n
      let adjustment_factor := 1 + sentiment_adjustment * day_weight * (1/10)
      value * adjustment_factor) 0 forecast_values,
   sentiment_adjustment⟩

/-- `confidence_factor = 1.96 * (1 + (1 - sentiment_confidence) * 0.5)`
(line 145). -/
def confidence_factor (sentiment_confidence : ℚ) : ℚ :=
  (49/25) * (1 + (1 - sentiment_confidence) * (1/2))

/-- A value of the form `base + coeff·√rad` with `base`, `coeff`,
`rad` rational and `rad ≥ 0` in every use: the exact form of the
interval bounds `value ± margin`, where
`margin = confidence_factor · std_error · value · √(i+1)
        = (confidence_factor · value) · √(returns_variance · (i+1))`. -/
structure RadAffine where
  base : ℚ
  coeff : ℚ
  rad : ℚ
deriving DecidableEq, Repr

/-- Decides `0 ≤ base + coeff·√rad` (for `rad ≥ 0`) by sign analysis
and squaring; `radAffine_isNonneg_iff` below proves it against the real
value. -/
def RadAffine.isNonneg (x : RadAffine) : Bool :=
  if 0 ≤ x.base then
    decide (0 ≤ x.coeff) || decide (x.coeff ^ 2 * x.rad ≤ x.base ^ 2)
  else
    decide (0 ≤ x.coeff) && decide (x.base ^ 2 ≤ x.coeff ^ 2 * x.rad)

/-- `max(0, ·)` on a `base + coeff·√rad` value (line 152). -/
def RadAffine.max0 (x : RadAffine) : RadAffine :=
  if x.isNonneg then x else ⟨0, 0, 0⟩

/-- The per-index margin terms of `_calculate_confidence_intervals`
(line 150): entry `i` is the pair `(q, r)` with
`q = confidence_factor · value_i` and `r = returns_variance · (i+1)`,
the margin itself being `q·√r`
(`= confidence_factor · std_error · value_i · √(i+1)`). -/
def margin_terms (forecast : List ℚ)
    (returns_variance sentiment_confidence : ℚ) : List (ℚ × ℚ) :=
  idxMap (fun i value =>
      (confidence_factor sentiment_confidence * value,
       returns_variance * ((i : ℚ) + 1))) 0 forecast

/-- `PredictionService._calculate_confidence_intervals` (lines
133-156): recompute the historical returns (unguarded division, line
140), take `std_error = np.std(returns)`, and for each forecast index
produce `(max(0, value - margin), value + margin)`. -/
def calculate_confidence_intervals (forecast historical_prices : List ℚ)
    (sentiment_confidence : ℚ) : Except Unit (List (RadAffine × RadAffine)) := do
  let returns ← pyReturns historical_prices
  let retVar := listVariance returns
  let cf := confidence_factor sentiment_confidence
  pure (idxMap (fun i value =>
      (RadAffine.max0 ⟨value, -(cf * value), retVar * ((i : ℚ) + 1)⟩,
       (⟨value, cf * value, retVar * ((i : ℚ) + 1)⟩ : RadAffine))) 0 forecast)

/-- The computed parts of the `predict_with_sentiment` result the
claims refer to. -/
structure PredictOut where
  values : List ℚ
  intervals : List (RadAffine × RadAffine)
deriving DecidableEq, Repr

/-- `PredictionService.predict_with_sentiment` on a cache miss (lines
16-65), with the news-derived sentiment score and confidence supplied
as inputs (the news fetch is external; `get_overall_sentiment` above
produces them).  Runs the ARIMA forecast, applies the sentiment blend,
and computes the confidence intervals for the adjusted values. -/
def predict_with_sentiment_core (prices : List ℚ)
    (sentiment_score sentiment_confidence : ℚ) : Except Unit PredictOut := do
  let arima ← arima_forecast prices
  let adjusted := adjust_forecast_with_sentiment arima.values sentiment_score
  let intervals ←
    calculate_confidence_intervals adjusted.values prices sentiment_confidence
  pure ⟨adjusted.values, intervals⟩

/-! ## Supporting lemmas -/

theorem idxMap_length {α β : Type} (f : ℕ → α → β) (k : ℕ) (l : List α) :
    (idxMap f k l).length = l.length := by
  induction l generalizing k with
  | nil => rfl
  | cons a rest ih => simp [idxMap, ih]

theorem idxMap_getD {α β : Type} (f : ℕ → α → β) (l : List α) (k i : ℕ)
    (hi : i < l.length) (d : β) (d' : α) :
    (idxMap f k l).getD i d = f (k + i) (l.getD i d') := by
  induction l generalizing k i with
  | nil => simp at hi
  | cons a rest ih =>
    cases i with
    | zero => simp [idxMap]
    | succ j =>
      have hj : j < rest.length := by simpa using hi
      simp only [idxMap, List.getD_cons_succ]
      rw [ih (k + 1) j hj]
      ring_nf

theorem idxMap_mem {α β : Type} (f : ℕ → α → β) (k : ℕ) (l : List α)
    (x : β) (d' : α) (hx : x ∈ idxMap f k l) :
    ∃ i, i < l.length ∧ x = f (k + i) (l.getD i d') := by
  induction l generalizing k with
  | nil => simp [idxMap] at hx
  | cons a rest ih =>
    simp only [idxMap, List.mem_cons] at hx
    rcases hx with h | h
    · exact ⟨0, by simp, by simpa using h⟩
    · rcases ih (k + 1) h with ⟨i, hi, hval⟩
      refine ⟨i + 1, by simpa using hi, ?_⟩
      rw [hval, List.getD_cons_succ]
      ring_nf

theorem idxMap_id {α : Type} (f : ℕ → α → α) (k : ℕ) (l : List α)
    (hf : ∀ i a, f i a = a) : idxMap f k l = l := by
  induction l generalizing k with
  | nil => rfl
  | cons a rest ih => simp [idxMap, hf, ih]

theorem getD_replicate {α : Type} (n i : ℕ) (a d : α) (hi : i < n) :
    (List.replicate n a).getD i d = a := by
  induction n generalizing i with
  | zero => omega
  | succ m ih =>
    cases i with
    | zero => rfl
    | succ j => exact ih j (by omega)

theorem pickLatest_mem {α : Type} (time : α → ℤ) (l : List α) (r : α)
    (h : pickLatest time l = some r) : r ∈ l := by
  induction l with
  | nil => simp [pickLatest] at h
  | cons a rest ih =>
    simp only [pickLatest] at h
    cases hrest : pickLatest time rest with
    | none => rw [hrest] at h; simp at h; simp [h]
    | some b =>
      rw [hrest] at h
      simp only [Option.some.injEq] at h
      by_cases hle : time a ≤ time b
      · rw [if_pos hle] at h
        exact List.mem_cons_of_mem a (ih (h ▸ hrest))
      · rw [if_neg hle] at h
        simp [h]

theorem pickLatest_append_last {α : Type} (time : α → ℤ) (l : List α) (x : α)
    (h : ∀ y ∈ l, time y ≤ time x) :
    pickLatest time (l ++ [x]) = some x := by
  induction l with
  | nil => rfl
  | cons a rest ih =>
    have hrest := ih (fun y hy => h y (List.mem_cons_of_mem a hy))
    simp only [List.cons_append, pickLatest, List.append_eq, hrest]
    rw [if_pos (h a (List.mem_cons_self a rest))]

theorem sqrt_term_mono (a b ra rb : ℚ) (ha : 0 ≤ a) (hb : 0 ≤ b)
    (h : a ^ 2 * ra ≤ b ^ 2 * rb) :
    (a : ℝ) * Real.sqrt ra ≤ (b : ℝ) * Real.sqrt rb := by
  have ha' : (0:ℝ) ≤ (a:ℝ) := by exact_mod_cast ha
  have hb' : (0:ℝ) ≤ (b:ℝ) := by exact_mod_cast hb
  have e1 : (a : ℝ) * Real.sqrt ra = Real.sqrt ((a:ℝ) ^ 2 * ra) := by
    rw [Real.sqrt_mul (sq_nonneg _), Real.sqrt_sq ha']
  have e2 : (b : ℝ) * Real.sqrt rb = Real.sqrt ((b:ℝ) ^ 2 * rb) := by
    rw [Real.sqrt_mul (sq_nonneg _), Real.sqrt_sq hb']
  rw [e1, e2]
  exact Real.sqrt_le_sqrt (by exact_mod_cast h)

theorem sqrt_term_strict (a b ra rb : ℚ) (ha : 0 ≤ a) (hb : 0 ≤ b)
    (hra : 0 ≤ ra) (h : a ^ 2 * ra < b ^ 2 * rb) :
    (a : ℝ) * Real.sqrt ra < (b : ℝ) * Real.sqrt rb := by
  have ha' : (0:ℝ) ≤ (a:ℝ) := by exact_mod_cast ha
  have hb' : (0:ℝ) ≤ (b:ℝ) := by exact_mod_cast hb
  have e1 : (a : ℝ) * Real.sqrt ra = Real.sqrt ((a:ℝ) ^ 2 * ra) := by
    rw [Real.sqrt_mul (sq_nonneg _), Real.sqrt_sq ha']
  have e2 : (b : ℝ) * Real.sqrt rb = Real.sqrt ((b:ℝ) ^ 2 * rb) := by
    rw [Real.sqrt_mul (sq_nonneg _), Real.sqrt_sq hb']
  rw [e1, e2]
  refine Real.sqrt_lt_sqrt (by positivity) ?_
  exact_mod_cast h

theorem isNonneg_of_base_nonneg (b c : ℚ) (hb : 0 ≤ b) :
    (RadAffine.isNonneg ⟨b, c, 0⟩) = true := by
  simp only [RadAffine.isNonneg, if_pos hb]
  simp only [Bool.or_eq_true, decide_eq_true_eq]
  by_cases hc : 0 ≤ c
  · exact Or.inl hc
  · exact Or.inr (by nlinarith [sq_nonneg b])

instance {ε α : Type} [DecidableEq ε] [DecidableEq α] : DecidableEq (Except ε α) :=
  fun a b =>
    match a, b with
    | .ok x, .ok y =>
        if h : x = y then isTrue (by rw [h])
        else isFalse (by intro hc; cases hc; exact h rfl)
    | .error x, .error y =>
        if h : x = y then isTrue (by rw [h])
        else isFalse (by intro hc; cases hc; exact h rfl)
    | .ok _, .error _ => isFalse (by intro hc; cases hc)
    | .error _, .ok _ => isFalse (by intro hc; cases hc)

theorem except_ok_bind {α β : Type} (a : α) (f : α → Except Unit β) :
    (Except.ok a : Except Unit α) >>= f = f a := rfl

theorem except_pure {α : Type} (a : α) : (pure a : Except Unit α) = Except.ok a := rfl

theorem except_error_bind {α β : Type} (f : α → Except Unit β) :
    (Except.error () : Except Unit α) >>= f = Except.error () := rfl

/-! ### Evaluation lemmas for flat (constant) price series

The 40-element flat series of claim C6 is evaluated structurally (by
induction on the series) rather than by brute-force kernel reduction. -/

theorem difference_replicate (n : ℕ) (x : ℚ) :
    difference (List.replicate (n + 1) x) = List.replicate n 0 := by
  induction n with
  | zero => rfl
  | succ m ih =>
    simpa [List.replicate_succ, difference, sub_self] using ih

theorem getD_replicate_zero (p j : ℕ) :
    (List.replicate p (0:ℚ)).getD j 0 = 0 := by
  induction p generalizing j with
  | zero => rfl
  | succ m ih =>
    cases j with
    | zero => rfl
    | succ i => exact ih i

/-- Shared with claim C5: when the denominator `Σ data[i]²` is not
positive, the `denominator > 0` guard zeroes every coefficient, and the
zero total skips the normalization. -/
theorem ar_coefficients_of_nonpos_denominator (data : List ℚ) (p : ℕ)
    (h : (data.map (fun x => x ^ 2)).sum ≤ 0) :
    calculate_ar_coefficients data p = List.replicate p 0 := by
  simp only [calculate_ar_coefficients]
  have hraw : (List.range p).map (fun k =>
      if data.length ≤ k + 1 then (0:ℚ)
      else
        if 0 < (data.map (fun x => x ^ 2)).sum then
          ((List.range (data.length - (k+1))).map
            (fun i => data.getD (i + (k+1)) 0 * data.getD i 0)).sum /
            (data.map (fun x => x ^ 2)).sum
        else 0) = List.replicate p 0 := by
    have hf : ∀ k, (if data.length ≤ k + 1 then (0:ℚ)
        else
          if 0 < (data.map (fun x => x ^ 2)).sum then
            ((List.range (data.length - (k+1))).map
              (fun i => data.getD (i + (k+1)) 0 * data.getD i 0)).sum /
              (data.map (fun x => x ^ 2)).sum
          else 0) = 0 := by
      intro k
      by_cases hk : data.length ≤ k + 1
      · rw [if_pos hk]
      · rw [if_neg hk, if_neg (not_lt.mpr h)]
    calc (List.range p).map _ = (List.range p).map (fun _ => (0:ℚ)) :=
          List.map_congr_left (fun k _ => hf k)
      _ = List.replicate p 0 := by
          rw [List.map_const', List.length_range]
  rw [hraw]
  simp [List.map_replicate, List.sum_replicate]

theorem forecast_steps_zero_coeffs (coeffs : List ℚ) (p k : ℕ) (init : List ℚ)
    (hc : ∀ j, coeffs.getD j 0 = 0) :
    forecast_steps coeffs p k init = List.replicate k 0 := by
  induction k generalizing init with
  | zero => rfl
  | succ m ih =>
    simp only [forecast_steps]
    have hnext : ((List.range (min p init.length)).map
        (fun j => coeffs.getD j 0 * init.getD j 0)).sum = 0 := by
      have : (List.range (min p init.length)).map
          (fun j => coeffs.getD j 0 * init.getD j 0) =
          (List.range (min p init.length)).map (fun _ => (0:ℚ)) :=
        List.map_congr_left (fun j _ => by rw [hc j, zero_mul])
      rw [this, List.map_const', List.sum_replicate, smul_zero]
    rw [hnext, List.replicate_succ]
    exact congrArg _ (ih _)

theorem integrate_replicate_zero (k : ℕ) (v : ℚ) :
    integrate (List.replicate k 0) v = List.replicate k v := by
  induction k generalizing v with
  | zero => rfl
  | succ m ih => simp [List.replicate_succ, integrate, ih]

/-- Shared with claim C5: the unguarded return computation raises
(`Except.error`) as soon as some non-final element of the series is
zero. -/
theorem pyReturns_error_of_zero (l : List ℚ) (i : ℕ)
    (hi : i + 1 < l.length) (h0 : l.getD i 0 = 0) :
    pyReturns l = Except.error () := by
  induction l generalizing i with
  | nil => simp at hi
  | cons a rest ih =>
    cases rest with
    | nil => simp at hi
    | cons b rest' =>
      cases i with
      | zero =>
        have : a = 0 := h0
        simp [pyReturns, this]
      | succ j =>
        have hj : j + 1 < (b :: rest').length := by simpa using hi
        have hrec := ih j hj (by simpa using h0)
        by_cases ha : a = 0
        · simp [pyReturns, ha]
        · simp [pyReturns, ha, hrec]

theorem pyReturns_replicate (n : ℕ) (x : ℚ) (hx : x ≠ 0) :
    pyReturns (List.replicate (n + 1) x) = Except.ok (List.replicate n 0) := by
  induction n with
  | zero => rfl
  | succ m ih =>
    have : List.replicate (m + 2) x = x :: x :: List.replicate m x := by
      simp [List.replicate_succ]
    rw [this]
    have ih' : pyReturns (x :: List.replicate m x) = Except.ok (List.replicate m 0) := by
      simpa [List.replicate_succ] using ih
    simp [pyReturns, hx, ih', sub_self, zero_div, List.replicate_succ]

theorem listVariance_replicate_zero (n : ℕ) :
    listVariance (List.replicate n 0) = 0 := by
  simp [listVariance, listMean, List.map_replicate, List.sum_replicate]

theorem getLastD_replicate (n : ℕ) (x d : ℚ) :
    (List.replicate (n + 1) x).getLastD d = x := by
  induction n generalizing d with
  | zero => rfl
  | succ m ih =>
    rw [List.replicate_succ, List.getLastD_cons]
    exact ih x

/-- `_arima_forecast` on a flat series of at least two identical
nonzero values: the differenced series is all zeros, every AR
coefficient is `0`, the forecast is flat at the last price, and the
historical volatility is zero. -/
theorem arima_forecast_flat (n : ℕ) (x : ℚ) (hx : x ≠ 0) :
    arima_forecast (List.replicate (n + 2) x) =
      Except.ok ⟨List.replicate FORECAST_DAYS x, 0⟩ := by
  have hdiff : difference^[ARIMA_D] (List.replicate (n + 2) x) =
      List.replicate (n + 1) 0 := by
    simp only [ARIMA_D, Function.iterate_one]
    exact difference_replicate (n + 1) x
  have hcoef : calculate_ar_coefficients (List.replicate (n + 1) 0) ARIMA_P =
      List.replicate ARIMA_P 0 :=
    ar_coefficients_of_nonpos_denominator _ _
      (by simp [List.map_replicate, List.sum_replicate])
  simp only [arima_forecast, hdiff, hcoef]
  rw [List.reverse_replicate,
    forecast_steps_zero_coeffs _ _ _ _ (fun j => getD_replicate_zero _ j),
    integrate_replicate_zero,
    show (n + 2) = (n + 1) + 1 from rfl, getLastD_replicate,
    pyReturns_replicate (n + 1) x hx, except_ok_bind,
    listVariance_replicate_zero]
  rfl

/-! ## Claim theorems -/

/-- C2 (counterexample): the claim asserts
`summarize([]) = {score: 0.0, label: Neutral, confidence: 0.0,
article_count: 0}` with all four fields present; in the code the
empty-input branch of `get_overall_sentiment` returns a dict *without*
the `article_count` key, so the claimed record is not the result. -/
theorem c2_counterexample :
    get_overall_sentiment [] ≠
      { score := 0, label := "Neutral", confidence := 0, article_count := some 0 } := by
  with_unfolding_all decide

/-- C2 (amended): applied to the empty list, the sentiment summary is
exactly `{score: 0.0, label: Neutral, confidence: 0.0}` — the
`article_count` field is absent (it is only set on the non-empty
branch). -/
theorem c2_empty_summary :
    get_overall_sentiment [] =
      { score := 0, label := "Neutral", confidence := 0, article_count := none } := rfl

/-- C7: a sentiment score of exactly `0.0` is a no-op on the blend
step: the adjustment factor `1 + (0 · weight) · dayWeight · 0.1` is
identically `1`, so the sentiment-adjusted forecast values equal the
raw autoregressive forecast values index-for-index, for every forecast
value sequence (hence for every price series' forecast). -/
theorem c7_neutral_sentiment_noop (forecast_values : List ℚ) :
    (adjust_forecast_with_sentiment forecast_values 0).values = forecast_values ∧
    (adjust_forecast_with_sentiment forecast_values 0).sentiment_adjustment = 0 := by
  constructor
  · simp only [adjust_forecast_with_sentiment]
    exact idxMap_id _ 0 forecast_values (fun i a => by simp)
  · simp [adjust_forecast_with_sentiment]

/-- C5 (amended): the AR-coefficient estimation guards a non-positive
denominator (every coefficient becomes `0`, and the zero normalization
total is skipped), and the overview's change-percent computation
guards a zero previous close (yielding `0`); but the day-over-day
simple-return computation is *unguarded*: a zero at any non-final
position of the price series makes it — and with it `_arima_forecast`
and `_calculate_confidence_intervals` — raise `ZeroDivisionError`
instead of substituting `0`. -/
theorem c5_division_guards :
    (∀ (data : List ℚ) (p : ℕ), (data.map (fun x => x ^ 2)).sum ≤ 0 →
      calculate_ar_coefficients data p = List.replicate p 0) ∧
    (∀ (symbol : String) (info : YInfo), info.previousClose = some 0 →
      (fetch_stock_quick symbol (Except.ok info)).changePercent = 0) ∧
    (∀ (prices : List ℚ) (i : ℕ), i + 1 < prices.length → prices.getD i 0 = 0 →
      pyReturns prices = Except.error () ∧
      arima_forecast prices = Except.error () ∧
      ∀ (f : List ℚ) (c : ℚ),
        calculate_confidence_intervals f prices c = Except.error ()) := by
  refine ⟨ar_coefficients_of_nonpos_denominator, ?_, ?_⟩
  · intro symbol info hpc
    simp only [fetch_stock_quick, hpc, Option.getD_some]
    norm_num [round2]
  · intro prices i hi h0
    have hpy := pyReturns_error_of_zero prices i hi h0
    refine ⟨hpy, ?_, ?_⟩
    · simp only [arima_forecast, hpy, except_error_bind]
    · intro f c
      simp only [calculate_confidence_intervals, hpy, except_error_bind]

/-- C5 (witness): the guards and the unguarded raise at concrete
inputs. -/
theorem c5_division_guards_witness :
    calculate_ar_coefficients [0, 0] 5 = List.replicate 5 0 ∧
    (fetch_stock_quick "X.NS"
      (Except.ok (⟨none, none, some 0, none, none, none⟩ : YInfo))).changePercent = 0 ∧
    arima_forecast [0, 100] = Except.error () :=
  ⟨c5_division_guards.1 [0, 0] 5 (by with_unfolding_all decide),
   c5_division_guards.2.1 "X.NS" (⟨none, none, some 0, none, none, none⟩ : YInfo) rfl,
   (c5_division_guards.2.2 [0, 100] 0 (by decide)
     (by with_unfolding_all decide)).2.1⟩

/-- C5 (counterexample): the claim asserts the day-over-day
simple-return computation with a zero previous close yields `0`; in
the code (prediction_service.py line 98 and line 140) the division is
unguarded and raises — `[0, 100]` is a series containing a zero on
which `_arima_forecast` raises `ZeroDivisionError` rather than
producing any value. -/
theorem c5_counterexample :
    pyReturns [0, 100] = Except.error () ∧
    arima_forecast [0, 100] = Except.error () := by
  constructor
  · rfl
  · have hpy : pyReturns [(0:ℚ), 100] = Except.error () := rfl
    simp only [arima_forecast, hpy, except_error_bind]

/-- C10: for every non-empty list of news items, the summary treats an
item lacking a `sentiment_score` as scoring `0.0` in both the mean and
the variance (the summary of the list equals the summary of the list
with every missing score replaced by an explicit `0.0`), and its score
is the mean of the scores with missing values defaulted to `0.0` —
in particular the summary never fails on such items. -/
theorem c10_missing_scores_default (items : List Article) (h : items ≠ []) :
    get_overall_sentiment items =
      get_overall_sentiment (items.map (fun it =>
        { it with sentiment_score := some (it.sentiment_score.getD 0) })) ∧
    (get_overall_sentiment items).score =
      (items.map (fun it => it.sentiment_score.getD 0)).sum / (items.length : ℚ) := by
  have hne : items.map (fun it =>
      { it with sentiment_score := some (it.sentiment_score.getD 0) }) ≠ [] := by
    simpa using h
  have hscores : (items.map (fun it =>
      { it with sentiment_score := some (it.sentiment_score.getD 0) })).map
        (fun item => item.sentiment_score.getD 0) =
      items.map (fun item => item.sentiment_score.getD 0) := by
    rw [List.map_map]
    rfl
  constructor
  · simp only [get_overall_sentiment, if_neg h, if_neg hne, hscores, List.length_map]
  · simp only [get_overall_sentiment, if_neg h, List.length_map]

/-- C10 (witness): a single item with no `sentiment_score` key
summarizes like the same item with an explicit `0.0`, with score `0`. -/
theorem c10_missing_scores_default_witness :
    get_overall_sentiment [(⟨none, none, none, none, none, none, none⟩ : Article)] =
      get_overall_sentiment
        ([(⟨none, none, none, none, none, none, none⟩ : Article)].map
          (fun it => { it with sentiment_score := some (it.sentiment_score.getD 0) })) ∧
    (get_overall_sentiment
        [(⟨none, none, none, none, none, none, none⟩ : Article)]).score =
      ([(⟨none, none, none, none, none, none, none⟩ : Article)].map
          (fun it => it.sentiment_score.getD 0)).sum /
        (([(⟨none, none, none, none, none, none, none⟩ : Article)].length : ℕ) : ℚ) :=
  c10_missing_scores_default
    [(⟨none, none, none, none, none, none, none⟩ : Article)] (by decide)

/-- C3 (counterexample): the claim asserts that on provider failure /
absent credentials the fetched batch's sentiment scores are the fixed
values `+0.5` and `-0.2`; but `fetch_stock_news` (line 67) overwrites
every article's `sentiment_score` — the mock articles' preset values
included — with the analyzer's output on the article text.  With an
analyzer scoring everything `0` (standing in for `TextBlob`, whose
polarity on the mock texts is whatever it is — not the preset pair),
the no-credentials fetch for `TATASTEEL` returns scores `[0, 0]`, not
`[+0.5, -0.2]`. -/
theorem c3_counterexample :
    (fetch_stock_news (fun _ => 0) false (Except.ok []) "TATASTEEL" "T0" "T1").map
      Article.sentiment_score ≠ [some (1/2), some (-(1/5))] := by
  with_unfolding_all decide

/-- C3 (amended): when credentials are absent, or when the provider
call raises, `fetch_stock_news` returns the deterministic two-item
placeholder batch (same batch in both failure modes, so it never fails
the caller with an exception on this path) whose preset polarities in
`_get_mock_news` are exactly `+0.5` and `-0.2` — but whose returned
`sentiment_score` values are the analyzer's scores of the two fixed
placeholder texts, the preset pair having been overwritten at line
67. -/
theorem c3_placeholder_batch (analyze : String → ℚ)
    (apiResult : Except Unit (List RawArticle)) (symbol nowIso sixIso : String) :
    (get_mock_news (search_query symbol) nowIso sixIso).map Article.sentiment_score =
      [some (1/2), some (-(1/5))] ∧
    fetch_stock_news analyze false apiResult symbol nowIso sixIso =
      fetch_stock_news analyze true (Except.error ()) symbol nowIso sixIso ∧
    (fetch_stock_news analyze false apiResult symbol nowIso sixIso).map
        Article.sentiment_score =
      [some (analyze ((search_query symbol ++ " shows strong market performance") ++
         " " ++ "Market analysts predict positive trends based on recent economic indicators.")),
       some (analyze (("Investors cautious about " ++ search_query symbol ++
           " amid global uncertainty") ++
         " " ++ "Global economic conditions continue to impact investor sentiment."))] := by
  refine ⟨rfl, rfl, ?_⟩
  simp [fetch_stock_news, fetch_news_from_api, get_mock_news, article_text]

/-- C4 (counterexample): the claim asserts a news-cache read under the
global (no-symbol) key returns only entries written under the global
key; but the `else` branch of `get_cached_news` filters on freshness
only, so after a single write under the per-symbol key
`"RELIANCE.NS"` the global read returns that per-symbol row. -/
theorem c4_counterexample :
    (get_cached_news
        (cache_news DB.empty (some "RELIANCE.NS")
          [⟨none, none, none, none, none, none, some (1/2)⟩] 0)
        none 1800 0).all (fun r => r.symbol == none) = false := by
  with_unfolding_all decide

/-- C4 (amended): cache keys are scoped per record kind and per news
symbol, except for the global news read: (1) a news read under a
truthy per-symbol key returns exactly the fresh rows cached under that
symbol (never global-key or other-symbol rows); (2) a news read under
the global (no-symbol) key returns *all* fresh news rows — per-symbol
rows included, not only global-key rows; (3) record kinds never
interfere: price and prediction writes leave every news read
unchanged, and news writes leave every prediction and price read
unchanged.  These hold for every database state, hence after any
sequence of cache writes. -/
theorem c4_key_scoping :
    (∀ (st : DB) (s : String) (maxAge now : ℤ), s ≠ "" →
      get_cached_news st (some s) maxAge now =
        st.news_cache.filter
          (fun r => r.symbol == some s && now - maxAge < r.cached_at)) ∧
    (∀ (st : DB) (maxAge now : ℤ),
      get_cached_news st none maxAge now =
        st.news_cache.filter (fun r => now - maxAge < r.cached_at)) ∧
    (∀ (st : DB) (sym : String) (p cp : ℚ) (v : ℤ) (d : String) (t : ℤ)
        (q : Option String) (maxAge now : ℤ),
      get_cached_news (cache_stock_price st sym p cp v d t) q maxAge now =
        get_cached_news st q maxAge now) ∧
    (∀ (st : DB) (sym : String) (f : String) (sc : ℚ) (t : ℤ)
        (q : Option String) (maxAge now : ℤ),
      get_cached_news (cache_prediction st sym f sc t) q maxAge now =
        get_cached_news st q maxAge now) ∧
    (∀ (st : DB) (nsym : Option String) (arts : List Article) (t : ℤ)
        (sym : String) (maxAge now : ℤ),
      get_cached_prediction (cache_news st nsym arts t) sym maxAge now =
        get_cached_prediction st sym maxAge now ∧
      get_cached_stock_price (cache_news st nsym arts t) sym maxAge now =
        get_cached_stock_price st sym maxAge now) := by
  refine ⟨?_, ?_, ?_, ?_, ?_⟩
  · intro st s maxAge now hs
    have hts : truthySymbol (some s) = true := by
      simp [truthySymbol, hs]
    simp [get_cached_news, hts]
  · intro st maxAge now
    simp [get_cached_news, truthySymbol]
  · intro st sym p cp v d t q maxAge now
    rfl
  · intro st sym f sc t q maxAge now
    rfl
  · intro st nsym arts t sym maxAge now
    exact ⟨rfl, rfl⟩

/-- C4 (witness): the per-symbol scoping at a concrete state. -/
theorem c4_key_scoping_witness :
    get_cached_news
        (cache_news DB.empty (some "TCS.NS")
          [⟨none, none, none, none, none, none, some (1/2)⟩] 0)
        (some "TCS.NS") 1800 0 =
      (cache_news DB.empty (some "TCS.NS")
          [⟨none, none, none, none, none, none, some (1/2)⟩] 0).news_cache.filter
        (fun r => r.symbol == some "TCS.NS" && (0:ℤ) - 1800 < r.cached_at) :=
  c4_key_scoping.1
    (cache_news DB.empty (some "TCS.NS")
      [⟨none, none, none, none, none, none, some (1/2)⟩] 0)
    "TCS.NS" 1800 0 (by decide)

/-- C8: the prediction-cache round-trip and freshness contract:
(1) a `cache_prediction` followed immediately by `get_cached_prediction`
with any positive `max_age` returns exactly the stored row — the most
recent entry wins, older entries for the key notwithstanding;
(2) a get with `max_age = 0` after a nonzero elapsed time returns
absent; (3) no get ever returns a row whose age exceeds `max_age`.
(The code filters `created_at > now - max_age`, i.e. age strictly
below `max_age`, which implies the claimed `age ≤ max_age` bound.)
The time-monotonicity hypothesis — no existing row is stamped later
than `now` — reflects `CURRENT_TIMESTAMP` being non-decreasing across
inserts. -/
theorem c8_cache_round_trip :
    (∀ (st : DB) (sym F : String) (sc : ℚ) (now maxAge : ℤ), 0 < maxAge →
      (∀ r ∈ st.predictions, r.created_at ≤ now) →
      get_cached_prediction (cache_prediction st sym F sc now) sym maxAge now =
        some ⟨sym, F, sc, now⟩) ∧
    (∀ (st : DB) (sym F : String) (sc : ℚ) (now t : ℤ), 0 < t →
      (∀ r ∈ st.predictions, r.created_at ≤ now) →
      get_cached_prediction (cache_prediction st sym F sc now) sym 0 (now + t) =
        none) ∧
    (∀ (st : DB) (sym : String) (maxAge now : ℤ) (r : PredictionRow),
      get_cached_prediction st sym maxAge now = some r →
      now - r.created_at ≤ maxAge) := by
  refine ⟨?_, ?_, ?_⟩
  · intro st sym F sc now maxAge hpos hmono
    simp only [get_cached_prediction, cache_prediction, List.filter_append]
    have hnew : (List.filter
        (fun r : PredictionRow => r.symbol == sym && decide (now - maxAge < r.created_at))
        [⟨sym, F, sc, now⟩]) = [⟨sym, F, sc, now⟩] := by
      simp [List.filter, decide_eq_true_eq]
      rw [decide_eq_true hpos]
    rw [hnew]
    apply pickLatest_append_last
    intro y hy
    have hy' := List.mem_filter.mp hy
    exact hmono y hy'.1
  · intro st sym F sc now t hpos hmono
    simp only [get_cached_prediction, cache_prediction, List.filter_append]
    have hnew : (List.filter
        (fun r : PredictionRow => r.symbol == sym && decide (now + t - 0 < r.created_at))
        [⟨sym, F, sc, now⟩]) = [] := by
      simp [List.filter, decide_eq_true_eq]
      rw [decide_eq_false (by omega : ¬ (t < 0))]
    have hold : (List.filter
        (fun r : PredictionRow => r.symbol == sym && decide (now + t - 0 < r.created_at))
        st.predictions) = [] := by
      rw [List.filter_eq_nil_iff]
      intro r hr
      have := hmono r hr
      simp only [Bool.and_eq_true, decide_eq_true_eq, not_and]
      intro _
      omega
    rw [hnew, hold]
    rfl
  · intro st sym maxAge now r hget
    have hmem := pickLatest_mem _ _ _ hget
    have := (List.mem_filter.mp hmem).2
    simp only [Bool.and_eq_true, decide_eq_true_eq] at this
    omega

/-- C8 (witness): round trip and expiry at concrete inputs. -/
theorem c8_cache_round_trip_witness :
    get_cached_prediction (cache_prediction DB.empty "TCS.NS" "F" (1/2) 5)
        "TCS.NS" 10 5 = some ⟨"TCS.NS", "F", 1/2, 5⟩ ∧
    get_cached_prediction (cache_prediction DB.empty "TCS.NS" "F" (1/2) 5)
        "TCS.NS" 0 (5 + 1) = none ∧
    (5:ℤ) - (5:ℤ) ≤ 10 :=
  ⟨c8_cache_round_trip.1 DB.empty "TCS.NS" "F" (1/2) 5 10 (by decide)
      (by simp [DB.empty]),
   c8_cache_round_trip.2.1 DB.empty "TCS.NS" "F" (1/2) 5 1 (by decide)
      (by simp [DB.empty]),
   c8_cache_round_trip.2.2 (cache_prediction DB.empty "TCS.NS" "F" (1/2) 5)
      "TCS.NS" 10 5 ⟨"TCS.NS", "F", 1/2, 5⟩
      (c8_cache_round_trip.1 DB.empty "TCS.NS" "F" (1/2) 5 10 (by decide)
        (by simp [DB.empty]))⟩

/-- Per-symbol fetch success (the task raised no exception). -/
def outcomeOk : Except String YInfo → Bool
  | .ok _ => true
  | .error _ => false

/-- The error message of a failed per-symbol fetch is non-empty
(`str(e)` of virtually every real exception; the exclusion test
`if not stock_data.get('error')` distinguishes precisely this). -/
def errMsgNonempty : Except String YInfo → Bool
  | .ok _ => true
  | .error e => !(e == "")

theorem overview_stocks_length (tracked : List String)
    (outcomes : String → Except String YInfo)
    (h : ∀ s ∈ tracked, errMsgNonempty (outcomes s) = true) :
    ((tracked.map (fun s => fetch_stock_quick s (outcomes s))).filter
        (fun r => !errorTruthy r.error)).length =
      tracked.countP (fun s => outcomeOk (outcomes s)) := by
  induction tracked with
  | nil => rfl
  | cons s rest ih =>
    have hs := h s (List.mem_cons_self s rest)
    have hrest := ih (fun x hx => h x (List.mem_cons_of_mem s hx))
    cases houtcome : outcomes s with
    | ok info =>
      have hcond : (!errorTruthy (fetch_stock_quick s (outcomes s)).error) = true := by
        rw [houtcome]; rfl
      have hok : outcomeOk (outcomes s) = true := by rw [houtcome]; rfl
      simp only [List.map_cons, List.filter_cons, hcond, if_true, List.length_cons,
        List.countP_cons, hok, hrest]
    | error e =>
      rw [houtcome] at hs
      have he : (e == "") = false := by
        simpa [errMsgNonempty] using hs
      have hcond : (!errorTruthy (fetch_stock_quick s (outcomes s)).error) = false := by
        rw [houtcome]
        show (!errorTruthy (some e)) = false
        simp [errorTruthy, he]
      have hok : outcomeOk (outcomes s) = false := by rw [houtcome]; rfl
      simp only [List.map_cons, List.filter_cons, hcond, Bool.false_eq_true, if_false,
        List.countP_cons, hok, hrest]
      omega

/-- C9 (amended): for any symbol universe in which every failing
per-symbol fetch carries a non-empty error message, the overview's
result set contains exactly the successful snapshot records — failures
are excluded, not error-filled — and `statistics.total` equals that
count; the aggregation is a total function (it completes without
raising).  (The amendment: a failure whose exception stringifies to
the *empty* string defeats the `if not stock_data.get('error')` test
and is kept as a zero-filled record — see the counterexample.) -/
theorem c9_overview_partial_failure (tracked : List String)
    (outcomes : String → Except String YInfo)
    (h : ∀ s ∈ tracked, errMsgNonempty (outcomes s) = true) :
    (fetch_market_overview tracked outcomes).stocks.length =
      tracked.countP (fun s => outcomeOk (outcomes s)) ∧
    (fetch_market_overview tracked outcomes).total =
      tracked.countP (fun s => outcomeOk (outcomes s)) :=
  ⟨overview_stocks_length tracked outcomes h,
   overview_stocks_length tracked outcomes h⟩

/-- A 30-symbol universe for the claimed scenario. -/
def syms30 : List String :=
  ["S01", "S02", "S03", "S04", "S05", "S06", "S07", "S08", "S09", "S10",
   "S11", "S12", "S13", "S14", "S15", "S16", "S17", "S18", "S19", "S20",
   "S21", "S22", "S23", "S24", "S25", "S26", "S27", "S28", "S29", "S30"]

/-- The five symbols whose fetch always fails. -/
def failing5 : List String := ["S26", "S27", "S28", "S29", "S30"]

/-- Outcomes: 25 successes, 5 failures with an ordinary message. -/
def outcomes25 : String → Except String YInfo := fun s =>
  if s ∈ failing5 then Except.error "upstream unavailable"
  else Except.ok ⟨some 1, none, none, none, none, none⟩

/-- Outcomes: 25 successes, 5 failures whose `str(e)` is empty. -/
def outcomesEmptyMsg : String → Except String YInfo := fun s =>
  if s ∈ failing5 then Except.error ""
  else Except.ok ⟨some 1, none, none, none, none, none⟩

/-- C9 (witness): 30 symbols, 5 failing with an ordinary non-empty
message — exactly 25 records and `statistics.total = 25`. -/
theorem c9_overview_partial_failure_witness :
    (fetch_market_overview syms30 outcomes25).stocks.length = 25 ∧
    (fetch_market_overview syms30 outcomes25).total = 25 := by
  have h := c9_overview_partial_failure syms30 outcomes25
    (by with_unfolding_all decide)
  have hcount : syms30.countP (fun s => outcomeOk (outcomes25 s)) = 25 := by
    with_unfolding_all decide
  exact ⟨h.1.trans hcount, h.2.trans hcount⟩

theorem overview_length_all_kept (tracked : List String)
    (outcomes : String → Except String YInfo)
    (h : ∀ s ∈ tracked,
      errorTruthy (fetch_stock_quick s (outcomes s)).error = false) :
    (fetch_market_overview tracked outcomes).stocks.length = tracked.length := by
  simp only [fetch_market_overview]
  rw [List.filter_eq_self.mpr, List.length_map]
  intro r hr
  rcases List.mem_map.mp hr with ⟨s, hs, rfl⟩
  simp [h s hs]

/-- C9 (counterexample): the claim — failed symbols are excluded and
`total` counts only successes — fails when a failure's `str(e)` is the
empty string: `if not stock_data.get('error')` treats the empty
message as falsy and keeps the error-filled record.  With 30 symbols
of which exactly 5 fail (all with empty messages), the result set has
30 records and `statistics.total = 30`, not 25. -/
theorem c9_counterexample :
    syms30.countP (fun s => outcomeOk (outcomesEmptyMsg s)) = 25 ∧
    (fetch_market_overview syms30 outcomesEmptyMsg).stocks.length = 30 ∧
    (fetch_market_overview syms30 outcomesEmptyMsg).total = 30 := by
  have hall : ∀ s ∈ syms30,
      errorTruthy (fetch_stock_quick s (outcomesEmptyMsg s)).error = false := by
    with_unfolding_all decide
  have hlen := overview_length_all_kept syms30 outcomesEmptyMsg hall
  have h30 : syms30.length = 30 := by decide
  exact ⟨by with_unfolding_all decide, hlen.trans h30, hlen.trans h30⟩

/-- Shared helper: the blend with sentiment score `0` keeps the values
and produces adjustment `0`. -/
theorem adjust_zero (values : List ℚ) :
    adjust_forecast_with_sentiment values 0 = ⟨values, 0⟩ := by
  simp only [adjust_forecast_with_sentiment, zero_mul]
  rw [idxMap_id _ 0 values (fun i a => by simp)]

/-- C1 (counterexample): margins are *not* non-decreasing in the
horizon index for every forecast value sequence: with the historical
series `[100, 110, 100]` (returns `[1/10, -1/11]`, variance
`441/48400`), sentiment confidence `1`, and forecast values
`[100, 1]`, the index-1 margin
`confidenceFactor·stdError·1·√2` is strictly *smaller* than the
index-0 margin `confidenceFactor·stdError·100·√1`, because the margin
is proportional to the forecast value. -/
theorem c1_counterexample :
    pyReturns [100, 110, 100] = Except.ok [1/10, -(1/11)] ∧
    listVariance [1/10, -(1/11)] = 441/48400 ∧
    (((margin_terms [100, 1] (441/48400) 1).getD 1 (0, 0)).1 : ℝ) *
        Real.sqrt (((margin_terms [100, 1] (441/48400) 1).getD 1 (0, 0)).2 : ℝ) <
      (((margin_terms [100, 1] (441/48400) 1).getD 0 (0, 0)).1 : ℝ) *
        Real.sqrt (((margin_terms [100, 1] (441/48400) 1).getD 0 (0, 0)).2 : ℝ) := by
  refine ⟨by norm_num [pyReturns, except_ok_bind, except_pure],
    by norm_num [listVariance, listMean], ?_⟩
  have h1 : (margin_terms [100, 1] (441/48400) 1).getD 1 (0, 0) =
      ((49:ℚ)/25, (441:ℚ)/24200) := by
    norm_num [margin_terms, idxMap, confidence_factor]
  have h0 : (margin_terms [100, 1] (441/48400) 1).getD 0 (0, 0) =
      ((196:ℚ), (441:ℚ)/48400) := by
    norm_num [margin_terms, idxMap, confidence_factor]
  rw [h1, h0]
  exact sqrt_term_strict (49/25) 196 (441/24200) (441/48400)
    (by norm_num) (by norm_num) (by norm_num) (by norm_num)

/-- C1 (amended): the confidence-interval margins
`confidenceFactor · stdError · value · √(i+1)` are non-decreasing in
the horizon index whenever the forecast values themselves are
non-negative and non-decreasing at that step (for any fixed historical
returns variance and any sentiment confidence in `[0, 1]`); the
`√(i+1)` factor alone does not enforce monotonicity, since the margin
is also proportional to the forecast value. -/
theorem c1_margins_monotone (forecast : List ℚ) (retVar conf : ℚ) (i : ℕ)
    (hvar : 0 ≤ retVar) (hc0 : 0 ≤ conf) (hc1 : conf ≤ 1)
    (hi : i + 1 < forecast.length)
    (h0 : 0 ≤ forecast.getD i 0)
    (hmono : forecast.getD i 0 ≤ forecast.getD (i + 1) 0) :
    (((margin_terms forecast retVar conf).getD i (0, 0)).1 : ℝ) *
        Real.sqrt (((margin_terms forecast retVar conf).getD i (0, 0)).2 : ℝ) ≤
      (((margin_terms forecast retVar conf).getD (i + 1) (0, 0)).1 : ℝ) *
        Real.sqrt (((margin_terms forecast retVar conf).getD (i + 1) (0, 0)).2 : ℝ) := by
  have hcf : 0 ≤ confidence_factor conf := by
    simp only [confidence_factor]
    nlinarith
  have hgi : (margin_terms forecast retVar conf).getD i (0, 0) =
      (confidence_factor conf * forecast.getD i 0, retVar * ((i : ℚ) + 1)) := by
    simp only [margin_terms]
    rw [idxMap_getD _ forecast 0 i (by omega) (0, 0) 0]
    simp
  have hgi1 : (margin_terms forecast retVar conf).getD (i + 1) (0, 0) =
      (confidence_factor conf * forecast.getD (i + 1) 0,
        retVar * (((i : ℚ) + 1) + 1)) := by
    simp only [margin_terms]
    rw [idxMap_getD _ forecast 0 (i + 1) hi (0, 0) 0]
    push_cast
    simp
  rw [hgi, hgi1]
  have hvi1 : 0 ≤ forecast.getD (i + 1) 0 := le_trans h0 hmono
  apply sqrt_term_mono _ _ _ _ (mul_nonneg hcf h0) (mul_nonneg hcf hvi1)
  have hI : (0:ℚ) ≤ (i : ℚ) := by positivity
  have hvsq : forecast.getD i 0 ^ 2 ≤ forecast.getD (i + 1) 0 ^ 2 := by nlinarith
  have hra : (0:ℚ) ≤ retVar * ((i : ℚ) + 1) := by positivity
  have hstep : retVar * ((i : ℚ) + 1) ≤ retVar * (((i : ℚ) + 1) + 1) := by nlinarith
  calc (confidence_factor conf * forecast.getD i 0) ^ 2 * (retVar * ((i : ℚ) + 1))
      ≤ (confidence_factor conf * forecast.getD (i + 1) 0) ^ 2 *
          (retVar * ((i : ℚ) + 1)) := by
        apply mul_le_mul_of_nonneg_right _ hra
        rw [mul_pow, mul_pow]
        exact mul_le_mul_of_nonneg_left hvsq (by positivity)
    _ ≤ (confidence_factor conf * forecast.getD (i + 1) 0) ^ 2 *
          (retVar * (((i : ℚ) + 1) + 1)) := by
        apply mul_le_mul_of_nonneg_left hstep (by positivity)

/-- C1 (witness): the amended monotonicity at the concrete instance
`forecast = [1, 2]`, variance `1`, confidence `1`, index `0`. -/
theorem c1_margins_monotone_witness :
    (((margin_terms [1, 2] 1 1).getD 0 (0, 0)).1 : ℝ) *
        Real.sqrt (((margin_terms [1, 2] 1 1).getD 0 (0, 0)).2 : ℝ) ≤
      (((margin_terms [1, 2] 1 1).getD (0 + 1) (0, 0)).1 : ℝ) *
        Real.sqrt (((margin_terms [1, 2] 1 1).getD (0 + 1) (0, 0)).2 : ℝ) :=
  c1_margins_monotone [1, 2] 1 1 0 (by norm_num) (by norm_num) le_rfl
    (by decide) (by with_unfolding_all decide) (by with_unfolding_all decide)

/-- C6 (counterexample): the claim asserts that for the flat
40-element series at `100.0` *every* forecast value is `100.0`; but
`predict_with_sentiment` blends the news sentiment into the values, so
with a non-neutral sentiment (score `1`) the adjusted values differ
from `100` (index 0 is `100·(1 + 0.3·(1/10)·0.1) = 100.3`). -/
theorem c6_counterexample :
    (predict_with_sentiment_core (List.replicate 40 100) 1 0).toOption.map
      PredictOut.values ≠ some (List.replicate 10 100) := by
  have harima : arima_forecast (List.replicate 40 100) =
      Except.ok ⟨List.replicate 10 100, 0⟩ :=
    arima_forecast_flat 38 100 (by norm_num)
  have hpyret : pyReturns (List.replicate 40 (100:ℚ)) =
      Except.ok (List.replicate 39 0) :=
    pyReturns_replicate 39 100 (by norm_num)
  have hval : (predict_with_sentiment_core (List.replicate 40 100) 1 0).toOption.map
      PredictOut.values =
      some ((adjust_forecast_with_sentiment (List.replicate 10 (100:ℚ)) 1).values) := by
    simp only [predict_with_sentiment_core, harima, except_ok_bind,
      calculate_confidence_intervals, hpyret]
    rfl
  rw [hval]
  simp only [ne_eq, Option.some.injEq]
  intro heq
  have h0 := congrArg (fun l => l.getD 0 0) heq
  simp only [adjust_forecast_with_sentiment] at h0
  rw [idxMap_getD _ _ 0 0 (by simp) 0 0,
    getD_replicate 10 0 (100:ℚ) 0 (by omega)] at h0
  norm_num [SENTIMENT_WEIGHT, List.length_replicate] at h0

/-- C6 (amended): for the flat 40-element series at `100.0` *with a
neutral sentiment score (`0.0`)*, every forecast value is `100.0` and
every confidence interval has zero width with
`lower = value = upper = 100` (whatever the sentiment confidence),
because the differenced series is all zeros, all AR coefficients are
`0` (zero denominator), and the historical volatility — hence the
margin — is `0`.  The raw engine output records this:
`_arima_forecast` yields flat values `100` with zero returns
variance. -/
theorem c6_flat_series (c : ℚ) :
    arima_forecast (List.replicate 40 100) =
      Except.ok ⟨List.replicate 10 100, 0⟩ ∧
    ∃ out, predict_with_sentiment_core (List.replicate 40 100) 0 c = Except.ok out ∧
      out.values = List.replicate 10 100 ∧
      ∀ iv ∈ out.intervals,
        ((iv.1.base : ℝ) + (iv.1.coeff : ℝ) * Real.sqrt (iv.1.rad : ℝ) = 100 ∧
         (iv.2.base : ℝ) + (iv.2.coeff : ℝ) * Real.sqrt (iv.2.rad : ℝ) = 100) := by
  have harima : arima_forecast (List.replicate 40 100) =
      Except.ok ⟨List.replicate 10 100, 0⟩ :=
    arima_forecast_flat 38 100 (by norm_num)
  have hpyret : pyReturns (List.replicate 40 (100:ℚ)) =
      Except.ok (List.replicate 39 0) :=
    pyReturns_replicate 39 100 (by norm_num)
  refine ⟨harima, ⟨⟨List.replicate 10 100,
    idxMap (fun i value =>
      (RadAffine.max0 ⟨value, -(confidence_factor c * value),
          listVariance (List.replicate 39 0) * ((i : ℚ) + 1)⟩,
       (⟨value, confidence_factor c * value,
          listVariance (List.replicate 39 0) * ((i : ℚ) + 1)⟩ : RadAffine)))
      0 (List.replicate 10 100)⟩, ?_, rfl, ?_⟩⟩
  · simp only [predict_with_sentiment_core, harima, except_ok_bind, adjust_zero,
      calculate_confidence_intervals, hpyret]
    rfl
  · intro iv hiv
    rcases idxMap_mem _ 0 _ iv 0 hiv with ⟨i, hilen, hval⟩
    rw [getD_replicate 10 i (100:ℚ) 0 (by simpa using hilen),
      listVariance_replicate_zero, zero_mul] at hval
    have hnn : RadAffine.isNonneg ⟨(100:ℚ), -(confidence_factor c * 100), 0⟩ = true :=
      isNonneg_of_base_nonneg 100 (-(confidence_factor c * 100)) (by norm_num)
    have hmax : RadAffine.max0 ⟨(100:ℚ), -(confidence_factor c * 100), 0⟩ =
        ⟨(100:ℚ), -(confidence_factor c * 100), 0⟩ := by
      simp [RadAffine.max0, hnn]
    rw [hval, hmax]
    constructor
    · simp [Real.sqrt_zero]
    · simp [Real.sqrt_zero]

/-- C6 (witness): the raw flat-series engine output at the concrete
input, by the theorem at sentiment confidence `1`. -/
theorem c6_flat_series_witness :
    arima_forecast (List.replicate 40 100) =
      Except.ok ⟨List.replicate 10 100, 0⟩ :=
  (c6_flat_series 1).1

end ShareTracker
